import Mathlib

/-!
Shallow embedding of the product-listing screen `src/project/src/screens/Box/Box.tsx`
of the fakestoreproductlisting repository.

The component keeps a catalog of products fetched from the Fake Store API and
derives a displayed list from it through a filter/sort pipeline driven by a
search string, three selection sets (categories, price bands, rating bands)
and a sort key.  Prices, rating values and review counts are JavaScript
numbers; they are embedded as rationals (`ℚ`).  JavaScript string helpers used
by the pipeline (`replace`, `split`, `toLowerCase`, `includes`, `Number`,
`parseInt`) are modelled explicitly below, faithfully on the inputs the
component feeds them.
-/

namespace FakeStore

/-- The nested `rating` record of a product: `rate` is the star rating and
`count` the number of reviews ("popularity"). -/
structure Rating where
  rate : ℚ
  count : ℚ
  deriving DecidableEq, Repr

/-- The `Product` interface of `Box.tsx`. -/
structure Product where
  id : ℤ
  title : String
  price : ℚ
  descr : String
  category : String
  image : String
  rating : Rating
  deriving DecidableEq, Repr

/-! ### Models of the JavaScript string/number primitives used by `Box.tsx` -/

/-- Lower-casing of a string, character by character, modelling
`String.prototype.toLowerCase` on the ASCII data the component handles. -/
def jsToLower (s : String) : String := ⟨s.data.map Char.toLower⟩

/-- Helper for `jsIncludes`: does `needle` occur as a contiguous run inside
`hay`?  Modelled as: a prefix at the current position, or an occurrence
further right. -/
def includesAux (needle : List Char) : List Char → Bool
  | [] => needle.isEmpty
  | c :: cs => needle.isPrefixOf (c :: cs) || includesAux needle cs

/-- `hay.includes(needle)` of JavaScript: substring containment. -/
def jsIncludes (hay needle : String) : Bool := includesAux needle.data hay.data

/-- Helper for `jsSplitChar`, accumulating the current chunk in reverse. -/
def splitAux (sep : Char) : List Char → List Char → List (List Char)
  | [], acc => [acc.reverse]
  | c :: cs, acc =>
      if c = sep then acc.reverse :: splitAux sep cs []
      else splitAux sep cs (c :: acc)

/-- `s.split(sep)` of JavaScript for a single-character separator: the chunks
between occurrences of `sep`, empty chunks kept, always at least one chunk. -/
def jsSplitChar (s : String) (sep : Char) : List String :=
  (splitAux sep s.data []).map fun l => ⟨l⟩

/-- Helper for `jsReplaceFirst`: rewrite the first occurrence of `pat`. -/
def replaceFirstAux (pat repl : List Char) : List Char → List Char
  | [] => []
  | c :: cs =>
      if pat.isPrefixOf (c :: cs) then repl ++ (c :: cs).drop pat.length
      else c :: replaceFirstAux pat repl cs

/-- `s.replace(pat, repl)` of JavaScript with a *string* pattern: only the
FIRST occurrence of `pat` is replaced. -/
def jsReplaceFirst (s pat repl : String) : String :=
  ⟨replaceFirstAux pat.data repl.data s.data⟩

/-- Numeric value of a run of decimal digits. -/
def digitsVal (l : List Char) : ℕ :=
  l.foldl (fun acc c => 10 * acc + (c.toNat - 48)) 0

/-- The JavaScript `Number(s)` conversion, modelled on the strings the price
filter produces: the empty string converts to `0`, a nonempty all-digit
string to its decimal value, and anything else (such as a string still
containing a `$` or a `+`) to NaN, represented as `none`.  Every numeric
comparison against NaN is false, which the comparison sites below encode by
matching on the `Option`. -/
def jsNumber (s : String) : Option ℚ :=
  if s.data.isEmpty then some 0
  else if s.data.all Char.isDigit then some (digitsVal s.data : ℚ)
  else none

/-- The JavaScript `parseInt(s)` conversion, modelled on the rating tokens:
the value of the longest leading run of digits, NaN (`none`) when there is
none. -/
def jsParseInt (s : String) : Option ℕ :=
  let ds := s.data.takeWhile Char.isDigit
  if ds.isEmpty then none else some (digitsVal ds)

/-! ### The filter/sort pipeline of the second `useEffect` of `Box.tsx` -/

/-- Search filter: when `searchTerm` is truthy (nonempty), keep the products
whose lower-cased title contains the lower-cased search term. -/
def searchFilter (searchTerm : String) (result : List Product) : List Product :=
  if searchTerm ≠ "" then
    result.filter fun product =>
      jsIncludes (jsToLower product.title) (jsToLower searchTerm)
  else result

/-- Category filter: when some categories are selected, keep the products
whose category is among them. -/
def categoryFilter (selectedCategories : List String) (result : List Product) :
    List Product :=
  if selectedCategories.length > 0 then
    result.filter fun product => selectedCategories.contains product.category
  else result

/-- One price-band test of the price filter:
`const [min, max] = range.replace('$','').split('-').map(Number)`, then
`price >= min` for a band containing `'+'` and `price >= min && price <= max`
otherwise.  `min` is element 0 of the mapped list and `max` element 1
(`undefined`, hence `none`, when absent); comparisons against NaN or
`undefined` are false. -/
def priceRangePass (range : String) (price : ℚ) : Bool :=
  let nums := (jsSplitChar (jsReplaceFirst range "$" "") '-').map jsNumber
  let lo := nums.headD none
  let hi := (nums.get? 1).join
  if jsIncludes range "+" then
    match lo with
    | some m => decide (price ≥ m)
    | none => false
  else
    match lo, hi with
    | some m, some M => decide (price ≥ m) && decide (price ≤ M)
    | _, _ => false

/-- Price-range filter: when some price bands are selected, keep the products
passing at least one selected band. -/
def priceRangeFilter (selectedPriceRanges : List String) (result : List Product) :
    List Product :=
  if selectedPriceRanges.length > 0 then
    result.filter fun product =>
      selectedPriceRanges.any fun range => priceRangePass range product.price
  else result

/-- One rating-band test of the rating filter:
`const minRating = parseInt(rating.split('+')[0])`, then
`product.rating.rate >= minRating` (false when `minRating` is NaN). -/
def ratingPass (rating : String) (rate : ℚ) : Bool :=
  match jsParseInt ((jsSplitChar rating '+').headD "") with
  | some m => decide (rate ≥ (m : ℚ))
  | none => false

/-- Rating filter: when some rating bands are selected, keep the products
passing at least one selected band. -/
def ratingFilter (selectedRatings : List String) (result : List Product) :
    List Product :=
  if selectedRatings.length > 0 then
    result.filter fun product =>
      selectedRatings.any fun rating => ratingPass rating product.rating.rate
  else result

/-- The sort switch.  JavaScript `Array.prototype.sort` with a comparator is a
stable sort; a comparator `(a, b) => k(a) - k(b)` orders ascending by `k`, so
each branch is embedded as a stable merge sort with the matching boolean
order.  The `default` branch (reached by `"popularity"` and by any
unrecognised key) sorts descending by review count. -/
def sortProducts (sortOption : String) (result : List Product) : List Product :=
  if sortOption = "price-low-high" then
    result.mergeSort fun a b => decide (a.price ≤ b.price)
  else if sortOption = "price-high-low" then
    result.mergeSort fun a b => decide (b.price ≤ a.price)
  else if sortOption = "rating" then
    result.mergeSort fun a b => decide (b.rating.rate ≤ a.rating.rate)
  else
    result.mergeSort fun a b => decide (b.rating.count ≤ a.rating.count)

/-- The whole pipeline of the second `useEffect`: starting from a copy of
`products`, apply the four filters in order, then sort; the result is what
`setFilteredProducts` receives and the grid displays. -/
def filterAndSort (products : List Product) (searchTerm : String)
    (selectedCategories selectedPriceRanges selectedRatings : List String)
    (sortOption : String) : List Product :=
  sortProducts sortOption
    (ratingFilter selectedRatings
      (priceRangeFilter selectedPriceRanges
        (categoryFilter selectedCategories
          (searchFilter searchTerm products))))

/-- The price-band options offered by the sidebar (`filterCategories`). -/
def priceRangeOptions : List String := ["$0-$50", "$50-$100", "$100-$200", "$200+"]

/-- The rating-band options offered by the sidebar (`filterCategories`). -/
def ratingOptions : List String := ["5", "4+", "3+"]

/-! ### Selection state and the toggle handler -/

/-- The pieces of component state that drive the pipeline: the search string,
the three selection sets and the sort key. -/
structure SelectionState where
  searchTerm : String
  selectedCategories : List String
  selectedPriceRanges : List String
  selectedRatings : List String
  sortOption : String
  deriving DecidableEq, Repr

/-- The updater passed to each `setSelected…` call inside `handleFilterChange`:
`prev.includes(option) ? prev.filter(item => item !== option) : [...prev, option]` —
remove every occurrence of the token when present, append it otherwise. -/
def toggleOption (prev : List String) (option : String) : List String :=
  if option ∈ prev then prev.filter fun item => item ≠ option
  else prev ++ [option]

/-- `handleFilterChange`: a `switch` on the filter-category name updating the
matching selection set through `toggleOption`; a name outside the three cases
falls through the `switch` and changes nothing. -/
def handleFilterChange (category option : String) (s : SelectionState) :
    SelectionState :=
  if category = "Category" then
    { s with selectedCategories := toggleOption s.selectedCategories option }
  else if category = "Price Range" then
    { s with selectedPriceRanges := toggleOption s.selectedPriceRanges option }
  else if category = "Rating" then
    { s with selectedRatings := toggleOption s.selectedRatings option }
  else s

/-! ### Fetch lifecycle -/

/-- The component state touched by the fetch effect. -/
structure AppState where
  products : List Product
  filteredProducts : List Product
  loading : Bool
  errorLog : List String
  deriving Repr

/-- The initial state: empty catalog, empty displayed list, `loading = true`. -/
def initialAppState : AppState :=
  { products := [], filteredProducts := [], loading := true, errorLog := [] }

/-- The fulfilled continuation of the fetch: store the catalog, display it,
clear the loading flag. -/
def onFetchSuccess (data : List Product) (s : AppState) : AppState :=
  { s with products := data, filteredProducts := data, loading := false }

/-- The `catch` handler of the fetch:
`console.error('Error fetching products:', error)` then `setLoading(false)`.
It is a total function on states — the rejection is consumed here, so no
exception propagates to the caller — it touches neither the catalog nor the
displayed list, appends a single diagnostic entry, and performs no further
fetch (no retry). -/
def onFetchError (error : String) (s : AppState) : AppState :=
  { s with loading := false,
           errorLog := s.errorLog ++ ["Error fetching products: " ++ error] }

/-! ### Definitions following the wording of the specification -/

/-- Modelled from the spec: the minimum star threshold each rating-band token
of the sidebar denotes — "5" means minimum 5, "4+" minimum 4, "3+" minimum 3. -/
def specRatingMin : String → ℚ
  | "4+" => 4
  | "3+" => 3
  | _ => 5

/-! ### Concrete sample data for scenario checks -/

/-- A concrete product, parameterised by the fields the pipeline inspects. -/
def sampleProduct (title : String) (price rate count : ℚ) : Product :=
  { id := 0, title := title, price := price, descr := "",
    category := "electronics", image := "", rating := { rate := rate, count := count } }

/-- The cheap product of the sort scenario: price 10, rating 3, 50 reviews. -/
def prodCheap : Product := sampleProduct "cheap" 10 3 50

/-- The expensive product of the sort scenario: price 90, rating 4.5,
10 reviews. -/
def prodDear : Product := sampleProduct "dear" 90 (9 / 2) 10

/-- A concrete selection state with everything at its defaults. -/
def sampleSelection : SelectionState :=
  { searchTerm := "", selectedCategories := [], selectedPriceRanges := [],
    selectedRatings := [], sortOption := "popularity" }

/-! ### Helper lemmas -/

/-- The search stage returns a sublist of its input. -/
theorem searchFilter_sublist (q : String) (l : List Product) :
    List.Sublist (searchFilter q l) l := by
  unfold searchFilter
  split
  · exact List.filter_sublist l
  · exact List.Sublist.refl l

/-- The category stage returns a sublist of its input. -/
theorem categoryFilter_sublist (cs : List String) (l : List Product) :
    List.Sublist (categoryFilter cs l) l := by
  unfold categoryFilter
  split
  · exact List.filter_sublist l
  · exact List.Sublist.refl l

/-- The price stage returns a sublist of its input. -/
theorem priceRangeFilter_sublist (ps : List String) (l : List Product) :
    List.Sublist (priceRangeFilter ps l) l := by
  unfold priceRangeFilter
  split
  · exact List.filter_sublist l
  · exact List.Sublist.refl l

/-- The rating stage returns a sublist of its input. -/
theorem ratingFilter_sublist (rs : List String) (l : List Product) :
    List.Sublist (ratingFilter rs l) l := by
  unfold ratingFilter
  split
  · exact List.filter_sublist l
  · exact List.Sublist.refl l

/-- The sort stage permutes its input, whatever the sort key. -/
theorem sortProducts_perm (key : String) (l : List Product) :
    List.Perm (sortProducts key l) l := by
  unfold sortProducts
  split
  · exact List.mergeSort_perm l _
  split
  · exact List.mergeSort_perm l _
  split
  · exact List.mergeSort_perm l _
  · exact List.mergeSort_perm l _

/-- Specification of a stable merge sort run with a boolean order `le` that is
transitive, total, and satisfied by any two elements sharing the sort key `k`:
the output is a permutation of the input, it is pairwise ordered by `le`, and
for every key value the products carrying that key appear exactly as they do
in the input (stability). -/
theorem mergeSort_key_spec (k : Product → ℚ) (le : Product → Product → Bool)
    (htrans : ∀ a b c, le a b → le b c → le a c)
    (htotal : ∀ a b, le a b || le b a)
    (hkey : ∀ a b, k a = k b → le a b)
    (l : List Product) :
    List.Perm (l.mergeSort le) l ∧ (l.mergeSort le).Pairwise (fun a b => le a b) ∧
    ∀ v : ℚ, (l.mergeSort le).filter (fun p => decide (k p = v)) =
      l.filter fun p => decide (k p = v) := by
  refine ⟨List.mergeSort_perm l le, List.sorted_mergeSort htrans htotal l, ?_⟩
  intro v
  set pred : Product → Bool := fun p => decide (k p = v) with hpred
  have hmemkey : ∀ x ∈ l.filter pred, k x = v := by
    intro x hx
    have hp := (List.mem_filter.mp hx).2
    simpa [hpred] using hp
  have hpw : (l.filter pred).Pairwise fun a b => le a b :=
    List.pairwise_iff_forall_sublist.mpr fun {a b} hab => by
      have ha : a ∈ l.filter pred := hab.subset (by simp)
      have hb : b ∈ l.filter pred := hab.subset (by simp)
      exact hkey a b ((hmemkey a ha).trans (hmemkey b hb).symm)
  have hcsub : List.Sublist (l.filter pred) (l.mergeSort le) :=
    List.sublist_mergeSort htrans htotal hpw (List.filter_sublist l)
  have hidem : (l.filter pred).filter pred = l.filter pred :=
    List.filter_eq_self.mpr fun a ha => by
      simp [hpred, hmemkey a ha]
  have h1 : List.Sublist (l.filter pred) ((l.mergeSort le).filter pred) := by
    have h := hcsub.filter pred
    rwa [hidem] at h
  have h2 : List.Perm ((l.mergeSort le).filter pred) (l.filter pred) :=
    (List.mergeSort_perm l le).filter pred
  exact (h1.eq_of_length h2.length_eq.symm).symm

/-- Membership after one toggle: a token is in the toggled set when it was
already there and is not the toggled token, or when it is the toggled token
and was absent. -/
theorem mem_toggleOption (l : List String) (o x : String) :
    x ∈ toggleOption l o ↔ ((x ∈ l ∧ x ≠ o) ∨ (x = o ∧ o ∉ l)) := by
  by_cases h : o ∈ l
  · simp [toggleOption, h, List.mem_filter]
  · by_cases hx : x = o
    · simp [toggleOption, h, hx]
    · simp [toggleOption, h, hx]

/-- Toggling the same token twice restores the membership of every token. -/
theorem mem_toggleOption_twice (l : List String) (o x : String) :
    x ∈ toggleOption (toggleOption l o) o ↔ x ∈ l := by
  by_cases hx : x = o <;> by_cases h : o ∈ l <;>
    simp [mem_toggleOption, hx, h]

/-- Instantiation of `mergeSort_key_spec` for sorting ascending by a key. -/
theorem mergeSort_asc_key (k : Product → ℚ) (l : List Product) :
    List.Perm (l.mergeSort fun a b => decide (k a ≤ k b)) l ∧
    (l.mergeSort fun a b => decide (k a ≤ k b)).Pairwise (fun a b => k a ≤ k b) ∧
    ∀ v : ℚ, (l.mergeSort fun a b => decide (k a ≤ k b)).filter
        (fun p => decide (k p = v)) =
      l.filter fun p => decide (k p = v) := by
  obtain ⟨h1, h2, h3⟩ := mergeSort_key_spec k (fun a b => decide (k a ≤ k b))
    (fun a b c hab hbc => by
      simp only [decide_eq_true_eq] at hab hbc ⊢
      exact le_trans hab hbc)
    (fun a b => by
      simp only [Bool.or_eq_true, decide_eq_true_eq]
      exact le_total _ _)
    (fun a b h => by simp [h]) l
  exact ⟨h1, h2.imp fun h => by simpa using h, h3⟩

/-- Instantiation of `mergeSort_key_spec` for sorting descending by a key. -/
theorem mergeSort_desc_key (k : Product → ℚ) (l : List Product) :
    List.Perm (l.mergeSort fun a b => decide (k b ≤ k a)) l ∧
    (l.mergeSort fun a b => decide (k b ≤ k a)).Pairwise (fun a b => k b ≤ k a) ∧
    ∀ v : ℚ, (l.mergeSort fun a b => decide (k b ≤ k a)).filter
        (fun p => decide (k p = v)) =
      l.filter fun p => decide (k p = v) := by
  obtain ⟨h1, h2, h3⟩ := mergeSort_key_spec k (fun a b => decide (k b ≤ k a))
    (fun a b c hab hbc => by
      simp only [decide_eq_true_eq] at hab hbc ⊢
      exact le_trans hbc hab)
    (fun a b => by
      simp only [Bool.or_eq_true, decide_eq_true_eq]
      exact le_total _ _)
    (fun a b h => by simp [h]) l
  exact ⟨h1, h2.imp fun h => by simpa using h, h3⟩

/-- On the three sidebar rating tokens the code's rating test agrees with the
threshold map the spec describes. -/
theorem ratingPass_eq_spec (tok : String) (htok : tok ∈ ratingOptions)
    (rate : ℚ) : ratingPass tok rate = decide (specRatingMin tok ≤ rate) := by
  fin_cases htok <;> rfl

/-- Each sidebar price token rejects every price: the band parsing leaves a
`$` in the upper bound (bounded bands) or a `+` in the lower bound (open
band), so `Number` yields NaN and the comparison fails. -/
theorem priceRangePass_ui_false (tok : String) (htok : tok ∈ priceRangeOptions)
    (q : ℚ) : priceRangePass tok q = false := by
  fin_cases htok <;> rfl

/-! ### Claim theorems -/

/-- C1: at the spec's scenario — selected band "$0-$50", catalog of products
priced 10, 60 and 200 — the code's price stage returns the empty list, not
the singleton with the price-10 product the claim requires: `replace('$','')`
strips only the first `$`, so the band's upper bound is `Number("$50")`, NaN,
and no product passes. -/
theorem C1_price_scenario_empty :
    priceRangeFilter ["$0-$50"]
      [sampleProduct "a" 10 3 50, sampleProduct "b" 60 3 50,
        sampleProduct "c" 200 3 50] = [] := rfl

/-- C2: with an empty search string, all selection sets empty and the default
sort key "popularity", the displayed list is the catalog sorted in descending
order of review count with tied elements kept in their encounter order: it is
a permutation of the catalog, pairwise descending in `rating.count`, and for
every count value the products carrying it appear exactly as in the
catalog. -/
theorem C2_default_pipeline (C : List Product) :
    List.Perm (filterAndSort C "" [] [] [] "popularity") C ∧
    (filterAndSort C "" [] [] [] "popularity").Pairwise
      (fun a b => b.rating.count ≤ a.rating.count) ∧
    ∀ v : ℚ, (filterAndSort C "" [] [] [] "popularity").filter
        (fun p => decide (p.rating.count = v)) =
      C.filter fun p => decide (p.rating.count = v) := by
  have hEq : filterAndSort C "" [] [] [] "popularity" =
      C.mergeSort fun a b => decide (b.rating.count ≤ a.rating.count) := rfl
  obtain ⟨h1, h2, h3⟩ := mergeSort_desc_key (fun p => p.rating.count) C
  exact ⟨hEq ▸ h1, hEq ▸ h2, fun v => hEq ▸ h3 v⟩

/-- C3: for a nonempty search string `q`, the text-filter stage keeps a
product exactly when the lower-cased `q` occurs as a substring of the
lower-cased title: membership in the filtered result is equivalent to
membership in the input together with the case-insensitive containment
test. -/
theorem C3_search_filter (q : String) (hq : q ≠ "") (l : List Product)
    (p : Product) :
    p ∈ searchFilter q l ↔
      p ∈ l ∧ jsIncludes (jsToLower p.title) (jsToLower q) = true := by
  simp [searchFilter, hq, List.mem_filter]

/-- Witness for C3 at a concrete input: search string "ap" and a catalog with
one product titled "Cap". -/
theorem C3_witness :
    ("ap" ≠ "") ∧
    (sampleProduct "Cap" 1 1 1 ∈ searchFilter "ap" [sampleProduct "Cap" 1 1 1] ↔
      sampleProduct "Cap" 1 1 1 ∈ [sampleProduct "Cap" 1 1 1] ∧
      jsIncludes (jsToLower (sampleProduct "Cap" 1 1 1).title)
        (jsToLower "ap") = true) :=
  ⟨by decide, C3_search_filter "ap" (by decide) _ _⟩

/-- C4: for a nonempty selection of rating tokens drawn from the sidebar's
set, the rating stage keeps a product exactly when its rating meets the
threshold of at least one selected token, where "5" means minimum 5, "4+"
minimum 4 and "3+" minimum 3. -/
theorem C4_rating_filter (R : List String) (hne : R ≠ [])
    (hsub : ∀ tok ∈ R, tok ∈ ratingOptions) (l : List Product) (p : Product) :
    p ∈ ratingFilter R l ↔
      p ∈ l ∧ ∃ tok ∈ R, specRatingMin tok ≤ p.rating.rate := by
  have hlen : R.length > 0 := List.length_pos.mpr hne
  simp only [ratingFilter, if_pos hlen, List.mem_filter, List.any_eq_true]
  constructor
  · rintro ⟨hp, tok, htok, hpass⟩
    refine ⟨hp, tok, htok, ?_⟩
    rw [ratingPass_eq_spec tok (hsub tok htok)] at hpass
    exact of_decide_eq_true hpass
  · rintro ⟨hp, tok, htok, hmin⟩
    refine ⟨hp, tok, htok, ?_⟩
    rw [ratingPass_eq_spec tok (hsub tok htok)]
    exact decide_eq_true hmin

/-- Witness for C4 at a concrete input: token "4+" keeps a product rated
5. -/
theorem C4_witness :
    sampleProduct "w" 1 5 1 ∈ ratingFilter ["4+"] [sampleProduct "w" 1 5 1] :=
  (C4_rating_filter ["4+"] (by decide) (by decide) _ _).mpr
    ⟨by decide, "4+", by decide, by decide⟩

/-- C5: the sort stage applies one of four orderings chosen by the key —
ascending price, descending price, descending rating, and (for any other key,
the default "popularity" included) descending review count — each a stable
total ordering: the output permutes the input, is pairwise ordered, and keeps
products with equal keys in their encounter order; and on the two-product
scenario with prices 10 and 90 the ascending-price order is [cheap, dear]. -/
theorem C5_sort_orders (l : List Product) (key : String)
    (hk1 : key ≠ "price-low-high") (hk2 : key ≠ "price-high-low")
    (hk3 : key ≠ "rating") :
    (List.Perm (sortProducts "price-low-high" l) l ∧
      (sortProducts "price-low-high" l).Pairwise (fun a b => a.price ≤ b.price) ∧
      ∀ v : ℚ, (sortProducts "price-low-high" l).filter
          (fun p => decide (p.price = v)) = l.filter fun p => decide (p.price = v)) ∧
    (List.Perm (sortProducts "price-high-low" l) l ∧
      (sortProducts "price-high-low" l).Pairwise (fun a b => b.price ≤ a.price) ∧
      ∀ v : ℚ, (sortProducts "price-high-low" l).filter
          (fun p => decide (p.price = v)) = l.filter fun p => decide (p.price = v)) ∧
    (List.Perm (sortProducts "rating" l) l ∧
      (sortProducts "rating" l).Pairwise (fun a b => b.rating.rate ≤ a.rating.rate) ∧
      ∀ v : ℚ, (sortProducts "rating" l).filter
          (fun p => decide (p.rating.rate = v)) =
        l.filter fun p => decide (p.rating.rate = v)) ∧
    (List.Perm (sortProducts key l) l ∧
      (sortProducts key l).Pairwise (fun a b => b.rating.count ≤ a.rating.count) ∧
      ∀ v : ℚ, (sortProducts key l).filter
          (fun p => decide (p.rating.count = v)) =
        l.filter fun p => decide (p.rating.count = v)) ∧
    sortProducts "price-low-high" [prodCheap, prodDear] = [prodCheap, prodDear] := by
  have e1 : sortProducts "price-low-high" l =
      l.mergeSort fun a b => decide (a.price ≤ b.price) := rfl
  have e2 : sortProducts "price-high-low" l =
      l.mergeSort fun a b => decide (b.price ≤ a.price) := rfl
  have e3 : sortProducts "rating" l =
      l.mergeSort fun a b => decide (b.rating.rate ≤ a.rating.rate) := rfl
  have e4 : sortProducts key l =
      l.mergeSort fun a b => decide (b.rating.count ≤ a.rating.count) := by
    simp [sortProducts, hk1, hk2, hk3]
  refine ⟨?_, ?_, ?_, ?_, ?_⟩
  · obtain ⟨h1, h2, h3⟩ := mergeSort_asc_key (fun p => p.price) l
    exact ⟨e1 ▸ h1, e1 ▸ h2, fun v => e1 ▸ h3 v⟩
  · obtain ⟨h1, h2, h3⟩ := mergeSort_desc_key (fun p => p.price) l
    exact ⟨e2 ▸ h1, e2 ▸ h2, fun v => e2 ▸ h3 v⟩
  · obtain ⟨h1, h2, h3⟩ := mergeSort_desc_key (fun p => p.rating.rate) l
    exact ⟨e3 ▸ h1, e3 ▸ h2, fun v => e3 ▸ h3 v⟩
  · obtain ⟨h1, h2, h3⟩ := mergeSort_desc_key (fun p => p.rating.count) l
    exact ⟨e4 ▸ h1, e4 ▸ h2, fun v => e4 ▸ h3 v⟩
  · show List.mergeSort [prodCheap, prodDear]
        (fun a b => decide (a.price ≤ b.price)) = [prodCheap, prodDear]
    exact List.mergeSort_of_sorted (by decide)

/-- Witness for C5 at a concrete input: the scenario catalog and the default
key "popularity", which is none of the three named keys. -/
theorem C5_witness :
    sortProducts "price-low-high" [prodCheap, prodDear] = [prodCheap, prodDear] ∧
    List.Perm (sortProducts "popularity" [prodCheap, prodDear])
      [prodCheap, prodDear] :=
  ⟨(C5_sort_orders [prodCheap, prodDear] "popularity" (by decide) (by decide)
      (by decide)).2.2.2.2,
   (C5_sort_orders [prodCheap, prodDear] "popularity" (by decide) (by decide)
      (by decide)).2.2.2.1.1⟩

/-- C6: when the catalog fetch fails, the handler clears the loading flag,
leaves the catalog and the displayed list empty, and appends exactly one
diagnostic entry; it is a total function on states, so no exception reaches
the caller, and it starts no new fetch. -/
theorem C6_fetch_failure (e : String) :
    (onFetchError e initialAppState).loading = false ∧
    (onFetchError e initialAppState).products = [] ∧
    (onFetchError e initialAppState).filteredProducts = [] ∧
    (onFetchError e initialAppState).errorLog =
      ["Error fetching products: " ++ e] :=
  ⟨rfl, rfl, rfl, rfl⟩

/-- C7: the toggle primitive removes a present token, adds an absent one and
leaves every other token alone, and toggling the same (category, option) pair
twice returns each selection set of `handleFilterChange` to its original
contents (the same members). -/
theorem C7_toggle_twice (l : List String) (o : String) (cat : String)
    (s : SelectionState) :
    (∀ x, x ∈ toggleOption (toggleOption l o) o ↔ x ∈ l) ∧
    (o ∈ l → o ∉ toggleOption l o) ∧
    (o ∉ l → o ∈ toggleOption l o) ∧
    (∀ x, x ≠ o → (x ∈ toggleOption l o ↔ x ∈ l)) ∧
    (∀ x, x ∈ (handleFilterChange cat o
        (handleFilterChange cat o s)).selectedCategories ↔
      x ∈ s.selectedCategories) ∧
    (∀ x, x ∈ (handleFilterChange cat o
        (handleFilterChange cat o s)).selectedPriceRanges ↔
      x ∈ s.selectedPriceRanges) ∧
    (∀ x, x ∈ (handleFilterChange cat o
        (handleFilterChange cat o s)).selectedRatings ↔
      x ∈ s.selectedRatings) := by
  refine ⟨mem_toggleOption_twice l o, ?_, ?_, ?_, ?_, ?_, ?_⟩
  · intro h
    simp [mem_toggleOption, h]
  · intro h
    simp [mem_toggleOption, h]
  · intro x hx
    simp [mem_toggleOption, hx]
  all_goals
    by_cases h1 : cat = "Category" <;> by_cases h2 : cat = "Price Range" <;>
      by_cases h3 : cat = "Rating" <;>
        simp [handleFilterChange, h1, h2, h3, mem_toggleOption_twice]

/-- Witness for C7 at a concrete input: token "4+" present in the rating
selection is removed by one toggle. -/
theorem C7_witness : "4+" ∉ toggleOption ["4+"] "4+" :=
  (C7_toggle_twice ["4+"] "4+" "Rating" sampleSelection).2.1 (by decide)

/-- C8: the pipeline derives a fresh list from the catalog — in this pure
embedding the input list is untouched by construction — and the displayed
list never gains products: the multiplicity of every product in the output is
at most its multiplicity in the catalog, so repeated filtering can neither
invent nor duplicate entries. -/
theorem C8_no_loss_no_dup (C : List Product) (q : String)
    (cs ps rs : List String) (key : String) (p : Product) :
    (filterAndSort C q cs ps rs key).count p ≤ C.count p := by
  have hperm := sortProducts_perm key
    (ratingFilter rs (priceRangeFilter ps (categoryFilter cs (searchFilter q C))))
  calc (filterAndSort C q cs ps rs key).count p
      = (ratingFilter rs (priceRangeFilter ps
          (categoryFilter cs (searchFilter q C)))).count p := hperm.count_eq p
    _ ≤ (priceRangeFilter ps (categoryFilter cs (searchFilter q C))).count p :=
        (ratingFilter_sublist rs _).count_le p
    _ ≤ (categoryFilter cs (searchFilter q C)).count p :=
        (priceRangeFilter_sublist ps _).count_le p
    _ ≤ (searchFilter q C).count p := (categoryFilter_sublist cs _).count_le p
    _ ≤ C.count p := (searchFilter_sublist q C).count_le p

/-- C9: any nonempty selection of the sidebar's price-band tokens makes the
price stage reject every product: each bounded band's upper bound is
`Number` of a string still holding a `$` (NaN) and the open band's lower
bound is `Number("200+")` (NaN), so no comparison succeeds. -/
theorem C9_ui_price_bands_empty (R : List String) (hne : R ≠ [])
    (hsub : ∀ tok ∈ R, tok ∈ priceRangeOptions) (l : List Product) :
    priceRangeFilter R l = [] := by
  have hlen : R.length > 0 := List.length_pos.mpr hne
  simp only [priceRangeFilter, if_pos hlen]
  refine List.filter_eq_nil_iff.mpr fun p hp hany => ?_
  rw [List.any_eq_true] at hany
  obtain ⟨tok, htok, hpass⟩ := hany
  rw [priceRangePass_ui_false tok (hsub tok htok) p.price] at hpass
  exact Bool.false_ne_true hpass

/-- Witness for C9 at a concrete input: the single band "$0-$50" empties a
one-product catalog. -/
theorem C9_witness :
    priceRangeFilter ["$0-$50"] [sampleProduct "w" 10 3 50] = [] :=
  C9_ui_price_bands_empty ["$0-$50"] (by decide) (by decide) _

/-- C10: a filter-category name outside the three the `switch` recognises
leaves the whole selection state — all three sets, the search text and the
sort key — unchanged. -/
theorem C10_unknown_category (cat opt : String) (s : SelectionState)
    (h1 : cat ≠ "Category") (h2 : cat ≠ "Price Range") (h3 : cat ≠ "Rating") :
    handleFilterChange cat opt s = s := by
  simp [handleFilterChange, h1, h2, h3]

/-- Witness for C10 at a concrete input: the unrecognised name "Brand". -/
theorem C10_witness :
    handleFilterChange "Brand" "x" sampleSelection = sampleSelection :=
  C10_unknown_category "Brand" "x" sampleSelection (by decide) (by decide)
    (by decide)

end FakeStore
